import Mathlib

/-!
Shallow embedding of the interaction-controller cluster of the repository
(canonical variants: artifacts/digital-experience-healthcare/main.js and the
unnamed main.js variant with keyboard-navigable tabs).

Strings are modelled as lists of characters.  JavaScript's toLowerCase,
trim, includes, replace(non-digit, empty) and slice are modelled by the
corresponding list functions below; Char.toLower and Char.isWhitespace
model the ASCII behaviour relevant to the embedded data.
-/

namespace WebCtl

/-- JS value.toLowerCase(), character-wise ASCII lowering. -/
def lowerStr (s : List Char) : List Char := s.map Char.toLower

/-- JS value.trim(): drop whitespace from both ends. -/
def strTrim (s : List Char) : List Char :=
  ((s.dropWhile Char.isWhitespace).reverse.dropWhile Char.isWhitespace).reverse

/-- Does the list start with the given needle (JS startsWith, used to model includes). -/
def strStarts : List Char → List Char → Bool
  | _, [] => true
  | [], _ :: _ => false
  | a :: hay, b :: nee => a == b && strStarts hay nee

/-- JS haystack.includes(needle): needle occurs contiguously in haystack. -/
def strIncludes (hay nee : List Char) : Bool :=
  match hay with
  | [] => nee.isEmpty
  | _ :: t => strStarts hay nee || strIncludes t nee

/-- JS value.replace(non-digit, empty): keep only decimal digits. -/
def digitsOf (s : List Char) : List Char := s.filter Char.isDigit

/-- A service card as read off one card element: data-title, data-description,
data-tags (already split on commas and trimmed) and data-popularity. -/
structure Card where
  title : List Char
  description : List Char
  tags : List (List Char)
  popularity : Int
deriving DecidableEq

/-- main.js filterAndSortCards, search part: matchesSearch for one card,
given the processed query (lowercased and trimmed search-input value). -/
def matchesSearch (query : List Char) (c : Card) : Bool :=
  query.isEmpty || strIncludes (lowerStr c.title) query
    || strIncludes (lowerStr c.description) query

/-- main.js filterAndSortCards, tag part: matchesFilter for one card. -/
def matchesFilter (activeFilters : List (List Char)) (c : Card) : Bool :=
  activeFilters.isEmpty || activeFilters.any (fun f => c.tags.contains f)

/-- Comparator used for the alphabetical sort: localeCompare on lowercased
titles, modelled as code-point lexicographic order. -/
def alphaLe (a b : Card) : Bool :=
  decide (lowerStr a.title ≤ lowerStr b.title)

/-- Comparator used for the popularity sort: descending popularity. -/
def popLe (a b : Card) : Bool :=
  b.popularity ≤ a.popularity

/-- main.js filterAndSortCards: compute the visible, ordered card sequence
from the raw search-input value, the active filter tags and the current
sort-dropdown value.  JS Array.prototype.sort is stable; mergeSort models it. -/
def filterAndSortCards (searchValue : List Char) (activeFilters : List (List Char))
    (currentSort : List Char) (cards : List Card) : List Card :=
  let query := strTrim (lowerStr searchValue)
  let visibleCards := cards.filter
    (fun c => matchesSearch query c && matchesFilter activeFilters c)
  if currentSort = "alphabetical".data then visibleCards.mergeSort alphaLe
  else if currentSort = "popularity".data then visibleCards.mergeSort popLe
  else visibleCards

/-- Field-validation error kinds (main.js returns message strings; the
distinct strings are modelled by the spec's error-kind taxonomy). -/
inductive ErrorKind where
  | Required
  | InvalidFormat
  | InvalidLength
  | TooShort
  | TooLong
deriving DecidableEq

/-- The email regex of main.js, anchored one-or-more non-space-non-at,
at sign, one-or-more non-space-non-at, dot, one-or-more non-space-non-at:
equivalently no whitespace, exactly one at sign with a nonempty part before
it, and after it a dot that is neither first nor last. -/
def emailRegexTest (v : List Char) : Bool :=
  let a := v.takeWhile (fun c => c ≠ '@')
  let rest := (v.dropWhile (fun c => c ≠ '@')).drop 1
  v.all (fun c => !c.isWhitespace) && (v.count '@' == 1)
    && (!a.isEmpty) && (!rest.isEmpty) && ((rest.drop 1).dropLast.contains '.')

/-- main.js validators.name. -/
def nameValidator (v : List Char) : Option ErrorKind :=
  if (strTrim v).isEmpty then some .Required else none

/-- main.js validators.email. -/
def emailValidator (v : List Char) : Option ErrorKind :=
  if (strTrim v).isEmpty then some .Required
  else if !emailRegexTest v then some .InvalidFormat
  else none

/-- main.js validators.phone (optional field). -/
def phoneValidator (v : List Char) : Option ErrorKind :=
  if (strTrim v).isEmpty then none
  else if (digitsOf v).length ≠ 10 then some .InvalidLength
  else none

/-- main.js validators.message. -/
def messageValidator (v : List Char) : Option ErrorKind :=
  if (strTrim v).isEmpty then some .Required
  else if (strTrim v).length < 20 then some .TooShort
  else if (strTrim v).length > 1000 then some .TooLong
  else none

/-- main.js formatPhone: strip non-digits, cap at 10, group progressively. -/
def formatPhone (value : List Char) : List Char :=
  let digits := (digitsOf value).take 10
  if digits.length ≤ 3 then digits
  else if digits.length ≤ 6 then '(' :: digits.take 3 ++ ')' :: ' ' :: digits.drop 3
  else '(' :: digits.take 3 ++ ')' :: ' ' :: ((digits.drop 3).take 3 ++ '-' :: digits.drop 6)

/-- The four contact-form field values. -/
structure FormValues where
  name : List Char
  email : List Char
  phone : List Char
  message : List Char
deriving DecidableEq

def emptyValues : FormValues := ⟨[], [], [], []⟩

/-- main.js checkFormValidity: conjunction of the four field validators
(the aria/inline-message repainting side effects of validateField carry no
modelled state). -/
def checkFormValidity (vals : FormValues) : Bool :=
  (nameValidator vals.name).isNone && (emailValidator vals.email).isNone
    && (phoneValidator vals.phone).isNone && (messageValidator vals.message).isNone

/-- Analytics record types appended by the form controller. -/
inductive EvType where
  | formSubmitSuccess
  | formSubmitError
deriving DecidableEq

/-- Observable state of the contact-form controller: field values, the
submit control's disabled flag, the loading indicator, the number of
in-flight simulated submissions (pending setTimeout callbacks), and the
analytics log slice owned by the form. -/
structure FormState where
  values : FormValues
  submitDisabled : Bool
  loading : Bool
  pending : Nat
  log : List EvType
deriving DecidableEq

inductive FieldId where
  | name | email | phone | message
deriving DecidableEq

/-- Events the form controller reacts to: a field input (carrying the raw
new value), a field blur, activation of the submit control, and the
resolution of one in-flight simulated submission. -/
inductive FormEvent where
  | input (f : FieldId) (v : List Char)
  | blur (f : FieldId)
  | submitClick
  | resolve (success : Bool)
deriving DecidableEq

def isInputEvent : FormEvent → Bool
  | .input _ _ => true
  | _ => false

/-- Write a field value; the phone input handler first replaces the raw
value by formatPhone of it. -/
def setFieldValue (vals : FormValues) (f : FieldId) (v : List Char) : FormValues :=
  match f with
  | .name => { vals with name := v }
  | .email => { vals with email := v }
  | .phone => { vals with phone := formatPhone v }
  | .message => { vals with message := v }

/-- main.js updateSubmitButton: disabled iff the form is invalid. -/
def updateSubmitButton (s : FormState) : FormState :=
  { s with submitDisabled := !checkFormValidity s.values }

/-- One step of the form controller.  A click on a disabled submit control
dispatches no submit event (browser behaviour for disabled buttons, the
admission-control mechanism named by the spec); otherwise the submit handler
runs: an invalid form only moves focus, a valid one disables the control,
shows the spinner and starts one simulated submission.  Resolution of an
in-flight submission runs the success or failure branch of the setTimeout
callback in main.js initContactForm. -/
def applyEvent (e : FormEvent) (s : FormState) : FormState :=
  match e with
  | .input f v => updateSubmitButton { s with values := setFieldValue s.values f v }
  | .blur _ => s
  | .submitClick =>
    if s.submitDisabled then s
    else if !checkFormValidity s.values then s
    else { s with submitDisabled := true, loading := true, pending := s.pending + 1 }
  | .resolve success =>
    if s.pending = 0 then s
    else if success then
      updateSubmitButton { s with
        values := emptyValues
        loading := false
        pending := s.pending - 1
        log := s.log ++ [.formSubmitSuccess] }
    else
      { s with
        loading := false
        pending := s.pending - 1
        submitDisabled := false
        log := s.log ++ [.formSubmitError] }

/-- State after initContactForm wires the empty form and runs
updateSubmitButton once. -/
def initialFormState : FormState :=
  updateSubmitButton
    { values := emptyValues
      submitDisabled := true
      loading := false
      pending := 0
      log := [] }

def runEvents (evs : List FormEvent) (s : FormState) : FormState :=
  evs.foldl (fun st e => applyEvent e st) s

/-- The spec's Submitting submission status: at least one simulated
submission in flight. -/
def Submitting (s : FormState) : Prop := s.pending ≠ 0

/-- One FAQ accordion item: its data-faq-id and whether it is open
(aria-expanded true, panel displayed). -/
structure FaqItem where
  id : List Char
  expanded : Bool
deriving DecidableEq

/-- main.js initFaqAccordion restore step: an item starts open iff its id
equals the id saved in storage (none models a null/absent saved id, which
equals no item id). -/
def restoreAccordion (savedId : Option (List Char)) (items : List FaqItem) : List FaqItem :=
  items.map fun it => { it with expanded := savedId == some it.id }

/-- main.js accordion click handler on the trigger of item i: read the
clicked item's expanded flag, close every item, then open the clicked item
iff it was closed (the storage write is a side effect outside this state). -/
def accordionClick (items : List FaqItem) (i : Nat) : List FaqItem :=
  match items[i]? with
  | none => items
  | some it =>
    let closed := items.map fun x => { x with expanded := false }
    if it.expanded then closed
    else closed.set i { it with expanded := true }

def runClicks (clicks : List Nat) (items : List FaqItem) : List FaqItem :=
  clicks.foldl accordionClick items

def openCount (items : List FaqItem) : Nat :=
  (items.filter (·.expanded)).length

def atMostOneOpen (items : List FaqItem) : Prop := openCount items ≤ 1

/-- Per-tab rendered state: aria-selected on the trigger and whether the
associated panel is displayed (aria-hidden false). -/
structure TabDom where
  selected : Bool
  visible : Bool
deriving DecidableEq

/-- activateTab of the keyboard-navigable initTabs variant: for every tab,
selected and panel visibility are set according to whether it is the target. -/
def activateTab (j : Nat) (ts : List TabDom) : List TabDom :=
  (List.range ts.length).map fun k => ⟨k == j, k == j⟩

inductive TabKey where
  | arrowRight | arrowLeft | homeKey | endKey
deriving DecidableEq

/-- Index reached from focused tab i among n tabs by one key press
(ArrowRight/Down wrap forward, ArrowLeft/Up wrap backward, Home, End). -/
def keyTarget (n i : Nat) : TabKey → Nat
  | .arrowRight => (i + 1) % n
  | .arrowLeft => (i + n - 1) % n
  | .homeKey => 0
  | .endKey => n - 1

/-- A tab-trigger click, or a key press while the trigger of tab i has focus. -/
inductive TabEvent where
  | click (j : Nat)
  | key (i : Nat) (k : TabKey)
deriving DecidableEq

def tabStep (s : List TabDom) (e : TabEvent) : List TabDom :=
  match e with
  | .click j => activateTab j s
  | .key i k => activateTab (keyTarget s.length i k) s

/-- Controller initialization: activateTab(tabs[0]). -/
def tabInit (ts : List TabDom) : List TabDom := activateTab 0 ts

def runTabEvents (evs : List TabEvent) (s : List TabDom) : List TabDom :=
  evs.foldl tabStep s

/-- An event is valid when it names an existing tab trigger. -/
def validTabEvent (n : Nat) : TabEvent → Bool
  | .click j => decide (j < n)
  | .key i _ => decide (i < n)

/-- The tab-group invariant: exactly one tab aria-selected, and each panel
visible exactly when its tab is selected. -/
def TabInv (s : List TabDom) : Prop :=
  (s.filter (·.selected)).length = 1 ∧ ∀ t ∈ s, t.visible = t.selected

/-- Result of one localStorage.getItem call: the store threw (unavailable),
the key is absent, or a raw string was found. -/
inductive StorageRead where
  | err
  | missing
  | found (raw : List Char)
deriving DecidableEq

/-- main.js getLocalStorage: try getItem; on throw or absent key return the
fallback; otherwise JSON.parse the raw value (modelled by the parse
parameter, none modelling a parse exception, also caught). -/
def getLocalStorage {α : Type} (parse : List Char → Option α)
    (read : StorageRead) (fallback : α) : α :=
  match read with
  | .err => fallback
  | .missing => fallback
  | .found raw =>
    match parse raw with
    | some v => v
    | none => fallback

/-- Spec-side notion: q is a case-insensitive substring of s. -/
def CaseInsensSubstring (q s : List Char) : Prop :=
  ∃ pre post, lowerStr s = pre ++ lowerStr q ++ post

/-- Spec-side filtering predicate of section 4.1: included iff
(query empty OR case-insensitive substring of title or description) AND
(no active tags OR some active tag belongs to the card's tags). -/
def SpecIncluded (query : List Char) (activeFilters : List (List Char)) (c : Card) : Prop :=
  (query = [] ∨ CaseInsensSubstring query c.title ∨ CaseInsensSubstring query c.description)
    ∧ (activeFilters = [] ∨ ∃ t ∈ activeFilters, t ∈ c.tags)

/-- An eight-card collection with exactly one card titled Pediatric Care
and no occurrence of the word pediatrics in any description. -/
def cexCards : List Card :=
  [⟨"Pediatric Care".data, "General child health.".data, [], 5⟩,
   ⟨"Cardiology".data, "Heart care.".data, [], 4⟩,
   ⟨"Dermatology".data, "Skin care.".data, [], 3⟩,
   ⟨"Neurology".data, "Brain care.".data, [], 2⟩,
   ⟨"Oncology".data, "Cancer care.".data, [], 1⟩,
   ⟨"Radiology".data, "Imaging.".data, [], 6⟩,
   ⟨"Urology".data, "Kidney care.".data, [], 7⟩,
   ⟨"Dentistry".data, "Tooth care.".data, [], 8⟩]

/-- The same eight-card collection except that the Pediatric Care card's
description mentions Pediatrics, so exactly one card matches the query. -/
def scnCards : List Card :=
  [⟨"Pediatric Care".data, "Comprehensive Pediatrics for children.".data, [], 5⟩,
   ⟨"Cardiology".data, "Heart care.".data, [], 4⟩,
   ⟨"Dermatology".data, "Skin care.".data, [], 3⟩,
   ⟨"Neurology".data, "Brain care.".data, [], 2⟩,
   ⟨"Oncology".data, "Cancer care.".data, [], 1⟩,
   ⟨"Radiology".data, "Imaging.".data, [], 6⟩,
   ⟨"Urology".data, "Kidney care.".data, [], 7⟩,
   ⟨"Dentistry".data, "Tooth care.".data, [], 8⟩]

/-! ### Helper lemmas -/

theorem strStarts_iff : ∀ (hay nee : List Char),
    strStarts hay nee = true ↔ ∃ rest, hay = nee ++ rest
  | hay, [] => by cases hay <;> simp [strStarts]
  | [], _ :: _ => by simp [strStarts]
  | a :: as, b :: bs => by
    rw [show strStarts (a :: as) (b :: bs) = (a == b && strStarts as bs) from rfl]
    rw [Bool.and_eq_true, beq_iff_eq, strStarts_iff as bs]
    constructor
    · rintro ⟨rfl, rest, rfl⟩
      exact ⟨rest, rfl⟩
    · rintro ⟨rest, h⟩
      rw [List.cons_append] at h
      injection h with h1 h2
      exact ⟨h1, rest, h2⟩

theorem strIncludes_iff (hay nee : List Char) :
    strIncludes hay nee = true ↔ ∃ pre post, hay = pre ++ nee ++ post := by
  induction hay with
  | nil =>
    rw [show strIncludes [] nee = nee.isEmpty from rfl, List.isEmpty_iff]
    constructor
    · rintro rfl
      exact ⟨[], [], rfl⟩
    · rintro ⟨pre, post, h⟩
      have h' := h.symm
      simp only [List.append_eq_nil, and_assoc] at h'
      exact h'.2.1
  | cons a as ih =>
    rw [show strIncludes (a :: as) nee
        = (strStarts (a :: as) nee || strIncludes as nee) from rfl]
    rw [Bool.or_eq_true, strStarts_iff, ih]
    constructor
    · rintro (⟨rest, h⟩ | ⟨pre, post, h⟩)
      · exact ⟨[], rest, by simpa using h⟩
      · exact ⟨a :: pre, post, by simp [h]⟩
    · rintro ⟨pre, post, h⟩
      cases pre with
      | nil => exact Or.inl ⟨post, by simpa using h⟩
      | cons x xs =>
        rw [List.cons_append, List.cons_append] at h
        injection h with h1 h2
        exact Or.inr ⟨xs, post, by rw [h2, List.append_assoc]⟩

theorem digitsOf_all (v : List Char) : ∀ c ∈ digitsOf v, c.isDigit = true :=
  fun _ hc => (List.mem_filter.mp hc).2

theorem digitsOf_of_all (l : List Char) (h : ∀ c ∈ l, c.isDigit = true) :
    digitsOf l = l :=
  List.filter_eq_self.mpr h

theorem formatPhone_unfold (w : List Char) : formatPhone w =
    (if ((digitsOf w).take 10).length ≤ 3 then (digitsOf w).take 10
     else if ((digitsOf w).take 10).length ≤ 6 then
       '(' :: ((digitsOf w).take 10).take 3 ++ ')' :: ' ' :: ((digitsOf w).take 10).drop 3
     else '(' :: ((digitsOf w).take 10).take 3 ++ ')' :: ' '
       :: ((((digitsOf w).take 10).drop 3).take 3 ++ '-' :: ((digitsOf w).take 10).drop 6)) :=
  rfl

theorem digitsOf_formatPhone (v : List Char) :
    digitsOf (formatPhone v) = (digitsOf v).take 10 := by
  have hall : ∀ c ∈ (digitsOf v).take 10, c.isDigit = true :=
    fun c hc => digitsOf_all v c (List.mem_of_mem_take hc)
  have hro : ('(' : Char).isDigit = false := by decide
  have hrc : (')' : Char).isDigit = false := by decide
  have hsp : (' ' : Char).isDigit = false := by decide
  have hda : ('-' : Char).isDigit = false := by decide
  rw [formatPhone_unfold]
  set d := (digitsOf v).take 10 with hd
  split
  · exact digitsOf_of_all d hall
  · split
    · have ht : ∀ c ∈ d.take 3, c.isDigit = true :=
        fun c hc => hall c (List.mem_of_mem_take hc)
      have hdr : ∀ c ∈ d.drop 3, c.isDigit = true :=
        fun c hc => hall c (List.mem_of_mem_drop hc)
      simp only [digitsOf, List.filter_cons, List.filter_append, hro, hrc, hsp,
        Bool.false_eq_true, if_false]
      rw [List.filter_eq_self.mpr ht, List.filter_eq_self.mpr hdr, List.take_append_drop]
    · have ht : ∀ c ∈ d.take 3, c.isDigit = true :=
        fun c hc => hall c (List.mem_of_mem_take hc)
      have hm : ∀ c ∈ (d.drop 3).take 3, c.isDigit = true :=
        fun c hc => hall c (List.mem_of_mem_drop (List.mem_of_mem_take hc))
      have he : ∀ c ∈ d.drop 6, c.isDigit = true :=
        fun c hc => hall c (List.mem_of_mem_drop hc)
      simp only [digitsOf, List.filter_cons, List.filter_append, hro, hrc, hsp, hda,
        Bool.false_eq_true, if_false]
      rw [List.filter_eq_self.mpr ht, List.filter_eq_self.mpr hm, List.filter_eq_self.mpr he]
      rw [show d.drop 6 = (d.drop 3).drop 3 from (List.drop_drop 3 3 d).symm]
      rw [List.take_append_drop, List.take_append_drop]

/-- C10: the phone formatting transform is idempotent: re-applying
formatPhone to an already formatted value never changes it, so the phone
input handler (which overwrites the field with formatPhone of its current
value on every keystroke) is stable on formatted values. -/
theorem c10_formatPhone_idempotent (v : List Char) :
    formatPhone (formatPhone v) = formatPhone v := by
  rw [formatPhone_unfold (formatPhone v), digitsOf_formatPhone, List.take_take,
    formatPhone_unfold v]
  norm_num

/-- C5 counterexample: the bare parenthesized stage is never produced; a
3-digit input renders as the raw digits, not as the parenthesized group
the claim's progressive-stage clause asserts. -/
theorem c5_counterexample :
    formatPhone "555".data = "555".data ∧ formatPhone "555".data ≠ "(555)".data := by
  decide

/-- C5 (amended): formatPhone strips non-digits and keeps at most the
first 10; digit counts 0-3 render as the raw digits (no bare parenthesized
stage), 4-6 as the paren group of the first 3 digits, a space and the rest,
7 and up as paren group, space, next 3 digits, dash and the remaining
(at most 4) digits; digits beyond the 10th never affect the output. -/
theorem c5_phone_format_shapes (v : List Char) :
    ((digitsOf v).length ≤ 3 → formatPhone v = digitsOf v) ∧
    (4 ≤ (digitsOf v).length → (digitsOf v).length ≤ 6 →
      formatPhone v = '(' :: (digitsOf v).take 3 ++ ')' :: ' ' :: (digitsOf v).drop 3) ∧
    (7 ≤ (digitsOf v).length →
      formatPhone v = '(' :: (digitsOf v).take 3 ++ ')' :: ' '
        :: (((digitsOf v).drop 3).take 3 ++ '-' :: ((digitsOf v).take 10).drop 6)) ∧
    (∀ w : List Char, (digitsOf v).take 10 = (digitsOf w).take 10 →
      formatPhone v = formatPhone w) := by
  refine ⟨?_, ?_, ?_, ?_⟩
  · intro h3
    rw [formatPhone_unfold, List.take_of_length_le (by omega)]
    rw [if_pos h3]
  · intro h4 h6
    rw [formatPhone_unfold, List.take_of_length_le (by omega)]
    rw [if_neg (by omega), if_pos h6]
  · intro h7
    rw [formatPhone_unfold]
    rw [if_neg (by simp only [List.length_take]; omega),
      if_neg (by simp only [List.length_take]; omega)]
    rw [List.take_take, List.drop_take, List.take_take]
    norm_num
  · intro w hw
    rw [formatPhone_unfold v, formatPhone_unfold w, hw]

theorem dropWhile_ws_replicate_a (n : Nat) :
    (List.replicate n 'a').dropWhile Char.isWhitespace = List.replicate n 'a' := by
  cases n with
  | zero => rfl
  | succ m =>
    rw [List.replicate_succ, List.dropWhile_cons]
    simp [show Char.isWhitespace 'a' = false from by decide]

theorem strTrim_replicate_a (n : Nat) :
    strTrim (List.replicate n 'a') = List.replicate n 'a' := by
  unfold strTrim
  rw [dropWhile_ws_replicate_a, List.reverse_replicate, dropWhile_ws_replicate_a,
    List.reverse_replicate]

theorem messageValidator_unfold (w : List Char) : messageValidator w =
    (if (strTrim w).isEmpty then some ErrorKind.Required
     else if (strTrim w).length < 20 then some ErrorKind.TooShort
     else if (strTrim w).length > 1000 then some ErrorKind.TooLong
     else none) :=
  rfl

theorem c5_witness :
    4 ≤ (digitsOf "(123) 45".data).length ∧ (digitsOf "(123) 45".data).length ≤ 6 ∧
    formatPhone "(123) 45".data
      = '(' :: (digitsOf "(123) 45".data).take 3 ++ ')' :: ' '
        :: (digitsOf "(123) 45".data).drop 3 ∧
    (digitsOf "12345678901111".data).take 10 = (digitsOf "1234567890".data).take 10 ∧
    formatPhone "12345678901111".data = formatPhone "1234567890".data := by
  refine ⟨by decide, by decide, ?_, by decide, ?_⟩
  · exact (c5_phone_format_shapes "(123) 45".data).2.1 (by decide) (by decide)
  · exact (c5_phone_format_shapes "12345678901111".data).2.2.2 "1234567890".data (by decide)

theorem replicate_a_ne_nil (n : Nat) (hn : 0 < n) :
    (List.replicate n 'a' : List Char) ≠ [] := by
  intro h
  have := congrArg List.length h
  simp at this
  omega

theorem messageValidator_iffs (v : List Char) :
    (messageValidator v = some .Required ↔ strTrim v = []) ∧
    (messageValidator v = some .TooShort ↔ strTrim v ≠ [] ∧ (strTrim v).length < 20) ∧
    (messageValidator v = some .TooLong ↔ (strTrim v).length > 1000) ∧
    (messageValidator v = none ↔
      20 ≤ (strTrim v).length ∧ (strTrim v).length ≤ 1000) := by
  rw [messageValidator_unfold]
  split_ifs with h1 h2 h3 <;> simp_all [List.isEmpty_iff]
  omega

/-- C6: the message validator returns Required exactly when the trimmed
value is empty, TooShort exactly when it is nonempty with trimmed length
below 20, TooLong exactly when the trimmed length exceeds 1000; the
boundary instances: 19 characters give TooShort, 20 and 1000 characters are
valid, 1001 characters give TooLong. -/
theorem c6_message_validator (v : List Char) :
    (messageValidator v = some .Required ↔ strTrim v = []) ∧
    (messageValidator v = some .TooShort ↔ strTrim v ≠ [] ∧ (strTrim v).length < 20) ∧
    (messageValidator v = some .TooLong ↔ (strTrim v).length > 1000) ∧
    (messageValidator v = none ↔
      20 ≤ (strTrim v).length ∧ (strTrim v).length ≤ 1000) ∧
    messageValidator (List.replicate 19 'a') = some .TooShort ∧
    messageValidator (List.replicate 20 'a') = none ∧
    messageValidator (List.replicate 1000 'a') = none ∧
    messageValidator (List.replicate 1001 'a') = some .TooLong := by
  obtain ⟨i1, i2, i3, i4⟩ := messageValidator_iffs v
  refine ⟨i1, i2, i3, i4, ?_, ?_, ?_, ?_⟩
  · exact (messageValidator_iffs _).2.1.mpr
      (by rw [strTrim_replicate_a]
          exact ⟨replicate_a_ne_nil 19 (by omega),
            by simp only [List.length_replicate]; omega⟩)
  · exact (messageValidator_iffs _).2.2.2.mpr
      (by rw [strTrim_replicate_a]; simp only [List.length_replicate]; omega)
  · exact (messageValidator_iffs _).2.2.2.mpr
      (by rw [strTrim_replicate_a]; simp only [List.length_replicate]; omega)
  · exact (messageValidator_iffs _).2.2.1.mpr
      (by rw [strTrim_replicate_a]; simp only [List.length_replicate]; omega)

/-- C8: the storage read wrapper returns the supplied default whenever the
store throws, the key is absent, or the stored value fails to parse; and
the accordion restore step, a total function, leaves every item closed
whenever the saved id names no item (in particular when it is absent or
malformed). -/
theorem c8_storage_defaults :
    (∀ (α : Type) (parse : List Char → Option α) (fallback : α),
      getLocalStorage parse .err fallback = fallback ∧
      getLocalStorage parse .missing fallback = fallback ∧
      ∀ raw, parse raw = none → getLocalStorage parse (.found raw) fallback = fallback) ∧
    (∀ (savedId : Option (List Char)) (items : List FaqItem),
      (∀ it ∈ items, savedId ≠ some it.id) →
      ∀ it ∈ restoreAccordion savedId items, it.expanded = false) := by
  constructor
  · intro α parse fallback
    refine ⟨rfl, rfl, ?_⟩
    intro raw hpr
    simp [getLocalStorage, hpr]
  · intro savedId items hne it hit
    rcases List.mem_map.mp hit with ⟨x, hx, rfl⟩
    exact beq_eq_false_iff_ne.mpr (hne x hx)

theorem c8_witness :
    getLocalStorage (fun _ => (none : Option (Option (List Char))))
      .err (none : Option (List Char)) = none ∧
    getLocalStorage (fun _ => (none : Option (Option (List Char))))
      .missing (none : Option (List Char)) = none ∧
    getLocalStorage (fun _ => (none : Option (Option (List Char))))
      (.found "x".data) (none : Option (List Char)) = none ∧
    (FaqItem.mk "x".data ((some "y".data : Option (List Char)) == some "x".data)).expanded
      = false := by
  obtain ⟨h1, h2⟩ := c8_storage_defaults
  exact ⟨(h1 _ _ _).1, (h1 _ _ _).2.1, (h1 _ _ _).2.2 "x".data rfl,
    h2 (some "y".data) [⟨"x".data, true⟩] (by decide) _ (by decide)⟩

theorem openCount_countP (items : List FaqItem) :
    openCount items = items.countP (·.expanded) :=
  (List.countP_eq_length_filter _ _).symm

theorem openCount_allClosed (items : List FaqItem) :
    openCount (items.map fun x => { x with expanded := false }) = 0 := by
  rw [openCount, List.filter_map]
  rw [show ((fun t : FaqItem => t.expanded) ∘ fun x : FaqItem => { x with expanded := false })
    = fun _ : FaqItem => false from rfl]
  simp

theorem countP_set_le (p : FaqItem → Bool) (l : List FaqItem) (i : Nat) (x : FaqItem) :
    (l.set i x).countP p ≤ l.countP p + 1 := by
  by_cases h : i < l.length
  · rw [List.countP_set p l i x h]
    split_ifs <;> omega
  · rw [List.set_eq_of_length_le (by omega)]
    omega

theorem atMostOne_click (items : List FaqItem) (i : Nat)
    (h : atMostOneOpen items) : atMostOneOpen (accordionClick items i) := by
  rcases hgo : items[i]? with _ | it
  · have heq : accordionClick items i = items := by
      simp [accordionClick, hgo]
    rw [heq]
    exact h
  · by_cases hexp : it.expanded
    · have heq : accordionClick items i = items.map fun x => { x with expanded := false } := by
        simp [accordionClick, hgo, hexp]
      rw [atMostOneOpen, heq, openCount_allClosed]
      omega
    · have heq : accordionClick items i
          = (items.map fun x => { x with expanded := false }).set i
              { it with expanded := true } := by
        simp [accordionClick, hgo, hexp]
      have h0 : (items.map fun x => { x with expanded := false }).countP (·.expanded) = 0 := by
        rw [← openCount_countP]
        exact openCount_allClosed items
      have h1 := countP_set_le (·.expanded) (items.map fun x => { x with expanded := false })
        i { it with expanded := true }
      rw [atMostOneOpen, heq, openCount_countP]
      omega

theorem countP_restore_le_one (savedId : Option (List Char)) (items : List FaqItem)
    (h : (items.map (·.id)).Nodup) :
    (restoreAccordion savedId items).countP (·.expanded) ≤ 1 := by
  induction items with
  | nil => simp [restoreAccordion]
  | cons a l ih =>
    rw [List.map_cons, List.nodup_cons] at h
    rw [show restoreAccordion savedId (a :: l)
        = { a with expanded := savedId == some a.id } :: restoreAccordion savedId l
        from rfl]
    rw [List.countP_cons]
    rw [show ({ a with expanded := savedId == some a.id } : FaqItem).expanded
        = (savedId == some a.id) from rfl]
    by_cases hmatch : (savedId == some a.id) = true
    · have hsid : savedId = some a.id := beq_iff_eq.mp hmatch
      have h0 : (restoreAccordion savedId l).countP (·.expanded) = 0 := by
        rw [List.countP_eq_zero]
        intro x hx
        rcases List.mem_map.mp hx with ⟨y, hy, rfl⟩
        show ¬((savedId == some y.id) = true)
        intro hc
        have hid : a.id = y.id := by
          rw [hsid] at hc
          simpa using beq_iff_eq.mp hc
        exact h.1 (hid ▸ List.mem_map_of_mem (·.id) hy)
      rw [h0, if_pos hmatch]
    · rw [if_neg hmatch]
      have := ih h.2
      omega

theorem atMostOne_runClicks (clicks : List Nat) (items : List FaqItem)
    (h : atMostOneOpen items) : atMostOneOpen (runClicks clicks items) := by
  induction clicks generalizing items with
  | nil => exact h
  | cons c cs ih =>
    exact ih (accordionClick items c) (atMostOne_click items c h)

/-- C3: from any reachable accordion state (restore from storage followed by
any clicks, item ids unique), at most one item is open after any further
click sequence; clicking a closed item's trigger closes everything else and
opens it, and clicking the open item's trigger closes all items. -/
theorem c3_accordion_single_open :
    (∀ (savedId : Option (List Char)) (items : List FaqItem) (clicks : List Nat),
      (items.map (·.id)).Nodup →
      atMostOneOpen (runClicks clicks (restoreAccordion savedId items))) ∧
    (∀ (items : List FaqItem) (i : Nat) (it : FaqItem),
      items[i]? = some it → it.expanded = false →
      accordionClick items i
        = (items.map fun x => { x with expanded := false }).set i
            { it with expanded := true }) ∧
    (∀ (items : List FaqItem) (i : Nat) (it : FaqItem),
      items[i]? = some it → it.expanded = true →
      accordionClick items i = items.map fun x => { x with expanded := false }) := by
  refine ⟨?_, ?_, ?_⟩
  · intro savedId items clicks h
    apply atMostOne_runClicks
    rw [atMostOneOpen, openCount_countP]
    exact countP_restore_le_one savedId items h
  · intro items i it hgo hexp
    simp [accordionClick, hgo, hexp]
  · intro items i it hgo hexp
    simp [accordionClick, hgo, hexp]

theorem c3_witness :
    (([⟨"q1".data, false⟩, ⟨"q2".data, false⟩] : List FaqItem).map (·.id)).Nodup ∧
    atMostOneOpen (runClicks [0, 1, 1]
      (restoreAccordion (some "q1".data) [⟨"q1".data, false⟩, ⟨"q2".data, false⟩])) ∧
    accordionClick [⟨"q1".data, true⟩, ⟨"q2".data, false⟩] 1
      = (([⟨"q1".data, true⟩, ⟨"q2".data, false⟩] : List FaqItem).map
          fun x => { x with expanded := false }).set 1 ⟨"q2".data, true⟩ ∧
    accordionClick [⟨"q1".data, true⟩, ⟨"q2".data, false⟩] 0
      = ([⟨"q1".data, true⟩, ⟨"q2".data, false⟩] : List FaqItem).map
          fun x => { x with expanded := false } := by
  obtain ⟨h1, h2, h3⟩ := c3_accordion_single_open
  refine ⟨by decide, h1 (some "q1".data) _ [0, 1, 1] (by decide), ?_, ?_⟩
  · exact h2 [⟨"q1".data, true⟩, ⟨"q2".data, false⟩] 1 ⟨"q2".data, false⟩ (by decide) rfl
  · exact h3 [⟨"q1".data, true⟩, ⟨"q2".data, false⟩] 0 ⟨"q1".data, true⟩ (by decide) rfl

theorem count_range_eq_one (n j : Nat) (h : j < n) :
    ((List.range n).filter (fun k => k == j)).length = 1 := by
  induction n with
  | zero => omega
  | succ m ih =>
    rw [List.range_succ, List.filter_append]
    by_cases hj : j = m
    · subst hj
      have h1 : (List.range j).filter (fun k => k == j) = [] := by
        rw [List.filter_eq_nil_iff]
        intro a ha
        have := List.mem_range.mp ha
        simp only [beq_iff_eq]
        omega
      rw [h1]
      simp
    · have hjm : j < m := by omega
      have h2 : ([m] : List Nat).filter (fun k => k == j) = [] := by
        rw [List.filter_eq_nil_iff]
        intro a ha
        simp only [List.mem_singleton] at ha
        subst ha
        simp only [beq_iff_eq]
        omega
      rw [List.length_append, ih hjm, h2]
      simp

theorem activateTab_length (j : Nat) (ts : List TabDom) :
    (activateTab j ts).length = ts.length := by
  simp [activateTab]

theorem activateTab_inv (j : Nat) (ts : List TabDom) (h : j < ts.length) :
    TabInv (activateTab j ts) := by
  constructor
  · rw [activateTab, List.filter_map]
    rw [show ((fun t : TabDom => t.selected) ∘ fun k : Nat => (⟨k == j, k == j⟩ : TabDom))
      = fun k : Nat => k == j from rfl]
    rw [List.length_map]
    exact count_range_eq_one ts.length j h
  · intro t ht
    rcases List.mem_map.mp ht with ⟨k, _, rfl⟩
    rfl

theorem tabStep_length (s : List TabDom) (e : TabEvent) :
    (tabStep s e).length = s.length := by
  cases e <;> exact activateTab_length _ _

theorem keyTarget_lt (n i : Nat) (k : TabKey) (hn : 0 < n) : keyTarget n i k < n := by
  cases k with
  | arrowRight => exact Nat.mod_lt _ hn
  | arrowLeft => exact Nat.mod_lt _ hn
  | homeKey => exact hn
  | endKey =>
    show n - 1 < n
    omega

theorem tabRun_inv : ∀ (evs : List TabEvent) (s : List TabDom),
    0 < s.length → (∀ e ∈ evs, validTabEvent s.length e = true) → TabInv s →
    ∀ k, TabInv (runTabEvents (evs.take k) s)
  | [], s, _, _, hInv, k => by
    simpa [runTabEvents] using hInv
  | e :: evs, s, hn, hval, hInv, 0 => by
    simpa [runTabEvents] using hInv
  | e :: evs, s, hn, hval, hInv, (k + 1) => by
    rw [List.take_succ_cons]
    rw [show runTabEvents (e :: evs.take k) s = runTabEvents (evs.take k) (tabStep s e)
      from rfl]
    have hstep : TabInv (tabStep s e) := by
      have hv := hval e (List.mem_cons_self _ _)
      cases e with
      | click j => exact activateTab_inv j s (by simpa [validTabEvent] using hv)
      | key i k' => exact activateTab_inv _ s (keyTarget_lt s.length i k' hn)
    exact tabRun_inv evs (tabStep s e)
      (by rw [tabStep_length]; exact hn)
      (fun e' he' => by rw [tabStep_length]; exact hval e' (List.mem_cons_of_mem _ he'))
      hstep k

/-- C4: from controller initialization (first tab activated) and through
any sequence of valid tab clicks and arrow/Home/End key presses, exactly
one tab is aria-selected at every point and each panel is visible exactly
when its tab is selected. -/
theorem c4_tabs_exactly_one_active (ts : List TabDom) (evs : List TabEvent)
    (hne : ts ≠ []) (hval : ∀ e ∈ evs, validTabEvent ts.length e = true) :
    ∀ k, TabInv (runTabEvents (evs.take k) (tabInit ts)) := by
  have hn : 0 < ts.length := List.length_pos.mpr hne
  have hlen : (tabInit ts).length = ts.length := activateTab_length 0 ts
  exact tabRun_inv evs (tabInit ts) (by rw [hlen]; exact hn)
    (fun e he => by rw [hlen]; exact hval e he)
    (activateTab_inv 0 ts hn)

theorem c4_witness :
    (([⟨false, false⟩, ⟨true, true⟩] : List TabDom) ≠ []) ∧
    (([TabEvent.click 1, TabEvent.key 1 .arrowRight, TabEvent.key 0 .endKey]).all
      (validTabEvent 2) = true) ∧
    TabInv (runTabEvents
      (([TabEvent.click 1, TabEvent.key 1 .arrowRight, TabEvent.key 0 .endKey]).take 3)
      (tabInit [⟨false, false⟩, ⟨true, true⟩])) := by
  refine ⟨by decide, by decide, ?_⟩
  exact c4_tabs_exactly_one_active [⟨false, false⟩, ⟨true, true⟩]
    [TabEvent.click 1, TabEvent.key 1 .arrowRight, TabEvent.key 0 .endKey]
    (by decide) (by decide) 3

theorem good_preserved (e : FormEvent) (s : FormState)
    (he : isInputEvent e = false)
    (h1 : s.pending ≤ 1) (h2 : s.pending ≠ 0 → s.submitDisabled = true) :
    (applyEvent e s).pending ≤ 1 ∧
      ((applyEvent e s).pending ≠ 0 → (applyEvent e s).submitDisabled = true) := by
  cases e with
  | input f v => simp [isInputEvent] at he
  | blur f => exact ⟨h1, h2⟩
  | submitClick =>
    by_cases hd : s.submitDisabled = true
    · have heq : applyEvent .submitClick s = s := by
        simp [applyEvent, hd]
      rw [heq]
      exact ⟨h1, h2⟩
    · have hp : s.pending = 0 := by
        by_contra hne
        exact hd (h2 hne)
      by_cases hv : checkFormValidity s.values = true
      · simp [applyEvent, hd, hv, hp]
      · have heq : applyEvent .submitClick s = s := by
          simp [applyEvent, hd, hv]
        rw [heq]
        exact ⟨h1, h2⟩
  | resolve success =>
    by_cases hp : s.pending = 0
    · have heq : applyEvent (.resolve success) s = s := by
        simp [applyEvent, hp]
      rw [heq]
      exact ⟨h1, h2⟩
    · have hp1 : s.pending = 1 := by omega
      cases success
      · simp [applyEvent, hp, hp1]
      · simp [applyEvent, hp, hp1, updateSubmitButton]

theorem good_run (evs : List FormEvent) (s : FormState)
    (hni : evs.all (fun e => !isInputEvent e) = true)
    (h1 : s.pending ≤ 1) (h2 : s.pending ≠ 0 → s.submitDisabled = true) :
    (runEvents evs s).pending ≤ 1 ∧
      ((runEvents evs s).pending ≠ 0 → (runEvents evs s).submitDisabled = true) := by
  induction evs generalizing s with
  | nil => exact ⟨h1, h2⟩
  | cons e es ih =>
    rw [List.all_cons, Bool.and_eq_true] at hni
    have he : isInputEvent e = false := by simpa using hni.1
    have hg := good_preserved e s he h1 h2
    exact ih (applyEvent e s) hni.2 hg.1 hg.2

/-- C2 counterexample: a reachable state exists in which a submission is in
flight (pending = 1) yet the submit control is enabled (a field input
during the in-flight window re-enabled it), and invoking submit there
starts a second simulated submission and, after both resolve as failures,
two form_submit_error analytics records have been appended. -/
theorem c2_counterexample :
    (runEvents [.input .name "John Doe".data,
      .input .email "john@example.com".data,
      .input .message "This is a test message with twenty plus chars.".data,
      .submitClick,
      .input .name "John Doe".data] initialFormState).pending = 1 ∧
    (runEvents [.input .name "John Doe".data,
      .input .email "john@example.com".data,
      .input .message "This is a test message with twenty plus chars.".data,
      .submitClick,
      .input .name "John Doe".data] initialFormState).submitDisabled = false ∧
    applyEvent .submitClick (runEvents [.input .name "John Doe".data,
      .input .email "john@example.com".data,
      .input .message "This is a test message with twenty plus chars.".data,
      .submitClick,
      .input .name "John Doe".data] initialFormState)
      ≠ (runEvents [.input .name "John Doe".data,
      .input .email "john@example.com".data,
      .input .message "This is a test message with twenty plus chars.".data,
      .submitClick,
      .input .name "John Doe".data] initialFormState) ∧
    (runEvents [.resolve false, .resolve false]
      (applyEvent .submitClick (runEvents [.input .name "John Doe".data,
        .input .email "john@example.com".data,
        .input .message "This is a test message with twenty plus chars.".data,
        .submitClick,
        .input .name "John Doe".data] initialFormState))).log
      = [.formSubmitError, .formSubmitError] := by
  refine ⟨by decide, by decide, by decide, by decide⟩

/-- C2 (amended): invoking submit while a submission is in flight has no
observable effect provided no field-input event occurred during the
in-flight window: from any state with at most one submission in flight and
the submit control disabled while one is, any sequence of non-input events
preserves that discipline, and a submit invocation in a still-Submitting
state is then the identity — no second submission, no analytics append, no
state change.  (A field input during the window re-enables the control and
breaks this, as the counterexample shows.) -/
theorem c2_admission_control (s : FormState) (evs : List FormEvent)
    (h1 : s.pending ≤ 1) (h2 : s.pending ≠ 0 → s.submitDisabled = true)
    (hni : evs.all (fun e => !isInputEvent e) = true)
    (hsub : Submitting (runEvents evs s)) :
    applyEvent .submitClick (runEvents evs s) = runEvents evs s := by
  have hg := good_run evs s hni h1 h2
  have hd : (runEvents evs s).submitDisabled = true := hg.2 hsub
  simp only [applyEvent, hd, if_true]

theorem c2_witness :
    ((runEvents [.input .name "John Doe".data,
        .input .email "john@example.com".data,
        .input .message "This is a test message with twenty plus chars.".data,
        .submitClick] initialFormState).pending ≤ 1) ∧
    Submitting (runEvents [.blur .name]
      (runEvents [.input .name "John Doe".data,
        .input .email "john@example.com".data,
        .input .message "This is a test message with twenty plus chars.".data,
        .submitClick] initialFormState)) ∧
    applyEvent .submitClick (runEvents [.blur .name]
      (runEvents [.input .name "John Doe".data,
        .input .email "john@example.com".data,
        .input .message "This is a test message with twenty plus chars.".data,
        .submitClick] initialFormState))
      = runEvents [.blur .name]
        (runEvents [.input .name "John Doe".data,
          .input .email "john@example.com".data,
          .input .message "This is a test message with twenty plus chars.".data,
          .submitClick] initialFormState) := by
  refine ⟨by decide, ?_, ?_⟩
  · show (runEvents [.blur .name]
      (runEvents [.input .name "John Doe".data,
        .input .email "john@example.com".data,
        .input .message "This is a test message with twenty plus chars.".data,
        .submitClick] initialFormState)).pending ≠ 0
    decide
  · exact c2_admission_control
      (runEvents [.input .name "John Doe".data,
        .input .email "john@example.com".data,
        .input .message "This is a test message with twenty plus chars.".data,
        .submitClick] initialFormState)
      [.blur .name] (by decide) (by decide) (by decide)
      (by show (runEvents [.blur .name]
            (runEvents [.input .name "John Doe".data,
              .input .email "john@example.com".data,
              .input .message "This is a test message with twenty plus chars.".data,
              .submitClick] initialFormState)).pending ≠ 0
          decide)

/-- C7: from any valid form state with the submit control enabled, invoking
submit and then resolving the simulated submission as failure leaves every
field value exactly as at submission time, re-enables the submit control,
and appends exactly one form_submit_error analytics record (the in-flight
count returning to its pre-submit value). -/
theorem c7_failure_outcome (s : FormState)
    (hv : checkFormValidity s.values = true) (hd : s.submitDisabled = false) :
    ((applyEvent (.resolve false) (applyEvent .submitClick s)).values = s.values) ∧
    ((applyEvent (.resolve false) (applyEvent .submitClick s)).submitDisabled = false) ∧
    ((applyEvent (.resolve false) (applyEvent .submitClick s)).log
      = s.log ++ [.formSubmitError]) ∧
    ((applyEvent (.resolve false) (applyEvent .submitClick s)).pending = s.pending) ∧
    Submitting (applyEvent .submitClick s) := by
  have h1 : applyEvent .submitClick s
      = { s with submitDisabled := true, loading := true, pending := s.pending + 1 } := by
    simp [applyEvent, hd, hv]
  rw [h1]
  refine ⟨?_, ?_, ?_, ?_, ?_⟩ <;>
    simp [applyEvent, Submitting]

theorem c7_witness :
    checkFormValidity ⟨"John Doe".data, "john@example.com".data, [],
      "This is a test message with twenty plus chars.".data⟩ = true ∧
    ((applyEvent (.resolve false) (applyEvent .submitClick
      ⟨⟨"John Doe".data, "john@example.com".data, [],
        "This is a test message with twenty plus chars.".data⟩,
        false, false, 0, []⟩)).values
      = ⟨"John Doe".data, "john@example.com".data, [],
        "This is a test message with twenty plus chars.".data⟩) ∧
    ((applyEvent (.resolve false) (applyEvent .submitClick
      ⟨⟨"John Doe".data, "john@example.com".data, [],
        "This is a test message with twenty plus chars.".data⟩,
        false, false, 0, []⟩)).submitDisabled = false) ∧
    ((applyEvent (.resolve false) (applyEvent .submitClick
      ⟨⟨"John Doe".data, "john@example.com".data, [],
        "This is a test message with twenty plus chars.".data⟩,
        false, false, 0, []⟩)).log = [] ++ [.formSubmitError]) := by
  have h := c7_failure_outcome
    ⟨⟨"John Doe".data, "john@example.com".data, [],
      "This is a test message with twenty plus chars.".data⟩,
      false, false, 0, []⟩ (by decide) rfl
  exact ⟨by decide, h.1, h.2.1, h.2.2.1⟩

theorem filterAndSortCards_unfold (searchValue : List Char) (af : List (List Char))
    (srt : List Char) (cards : List Card) :
    filterAndSortCards searchValue af srt cards =
      (if srt = "alphabetical".data then
        (cards.filter (fun c => matchesSearch (strTrim (lowerStr searchValue)) c
          && matchesFilter af c)).mergeSort alphaLe
       else if srt = "popularity".data then
        (cards.filter (fun c => matchesSearch (strTrim (lowerStr searchValue)) c
          && matchesFilter af c)).mergeSort popLe
       else
        cards.filter (fun c => matchesSearch (strTrim (lowerStr searchValue)) c
          && matchesFilter af c)) :=
  rfl

theorem filterAndSortCards_mem (searchValue : List Char) (af : List (List Char))
    (srt : List Char) (cards : List Card) (c : Card) :
    c ∈ filterAndSortCards searchValue af srt cards ↔
      c ∈ cards ∧ (matchesSearch (strTrim (lowerStr searchValue)) c
        && matchesFilter af c) = true := by
  rw [filterAndSortCards_unfold]
  split_ifs <;> simp [List.mem_mergeSort, List.mem_filter]

theorem filterAndSortCards_length (searchValue : List Char) (af : List (List Char))
    (srt : List Char) (cards : List Card) :
    (filterAndSortCards searchValue af srt cards).length
      = (cards.filter (fun c => matchesSearch (strTrim (lowerStr searchValue)) c
          && matchesFilter af c)).length := by
  rw [filterAndSortCards_unfold]
  split_ifs <;>
    first
      | exact (List.mergeSort_perm _ _).length_eq
      | rfl

theorem matchesSearch_iff (query : List Char) (c : Card) :
    matchesSearch query c = true ↔
      (query = [] ∨ (∃ pre post, lowerStr c.title = pre ++ query ++ post)
        ∨ (∃ pre post, lowerStr c.description = pre ++ query ++ post)) := by
  unfold matchesSearch
  rw [Bool.or_eq_true, Bool.or_eq_true, List.isEmpty_iff, strIncludes_iff, strIncludes_iff,
    or_assoc]

theorem matchesFilter_iff (af : List (List Char)) (c : Card) :
    matchesFilter af c = true ↔ (af = [] ∨ ∃ t ∈ af, t ∈ c.tags) := by
  unfold matchesFilter
  rw [Bool.or_eq_true, List.isEmpty_iff, List.any_eq_true]
  constructor
  · rintro (h | ⟨t, ht, hc⟩)
    · exact Or.inl h
    · exact Or.inr ⟨t, ht, List.elem_iff.mp hc⟩
  · rintro (h | ⟨t, ht, hm⟩)
    · exact Or.inl h
    · exact Or.inr ⟨t, ht, List.elem_iff.mpr hm⟩

/-- C1: for every card collection and filter state whose query carries no
surrounding whitespace, the engine includes a card in the visible result
iff (the query is empty OR it is a case-insensitive substring of the card's
title or description) AND (no tag is active OR some active tag belongs to
the card's tag set — OR across tags). -/
theorem c1_filter_predicate (cards : List Card) (query : List Char)
    (activeFilters : List (List Char)) (currentSort : List Char) (c : Card)
    (hq : strTrim (lowerStr query) = lowerStr query) :
    c ∈ filterAndSortCards query activeFilters currentSort cards ↔
      c ∈ cards ∧ SpecIncluded query activeFilters c := by
  rw [filterAndSortCards_mem, hq, Bool.and_eq_true, matchesSearch_iff, matchesFilter_iff]
  unfold SpecIncluded CaseInsensSubstring
  rw [show (lowerStr query = []) ↔ (query = []) from by
    unfold lowerStr
    exact List.map_eq_nil_iff]

theorem c1_witness :
    strTrim (lowerStr "Care".data) = lowerStr "Care".data ∧
    ((⟨"Pediatric Care".data, "General child health.".data, [], 5⟩ : Card)
        ∈ filterAndSortCards "Care".data [] "alphabetical".data cexCards ↔
      (⟨"Pediatric Care".data, "General child health.".data, [], 5⟩ : Card) ∈ cexCards ∧
        SpecIncluded "Care".data []
          ⟨"Pediatric Care".data, "General child health.".data, [], 5⟩) := by
  refine ⟨by decide, ?_⟩
  exact c1_filter_predicate cexCards "Care".data [] "alphabetical".data
    ⟨"Pediatric Care".data, "General child health.".data, [], 5⟩ (by decide)

/-- C9 counterexample: an eight-card collection with exactly one card
titled Pediatric Care, none of whose titles or descriptions contain the
word pediatrics, yields zero visible cards for query Pediatrics with no
active tags — not one: pediatrics is not a substring of pediatric care. -/
theorem c9_counterexample :
    cexCards.length = 8 ∧
    cexCards.countP (fun c => c.title == "Pediatric Care".data) = 1 ∧
    (filterAndSortCards "Pediatrics".data [] "alphabetical".data cexCards).length = 0 := by
  refine ⟨by decide, by decide, ?_⟩
  rw [filterAndSortCards_length]
  decide

/-- C9 (amended): for every 8-card collection in which exactly one card
case-insensitively contains pediatrics in its title or description (for
the scenario's collection: the Pediatric Care card, via its description,
since pediatrics is not a substring of the title Pediatric Care), the
engine run for query Pediatrics with zero active tags yields a visible set
of size exactly 1. -/
theorem c9_search_scenario (cards : List Card) (currentSort : List Char)
    (_hlen : cards.length = 8)
    (hone : cards.countP (fun c => strIncludes (lowerStr c.title) "pediatrics".data
      || strIncludes (lowerStr c.description) "pediatrics".data) = 1) :
    (filterAndSortCards "Pediatrics".data [] currentSort cards).length = 1 := by
  rw [filterAndSortCards_length, ← List.countP_eq_length_filter]
  have hfun : (fun c => matchesSearch (strTrim (lowerStr "Pediatrics".data)) c
      && matchesFilter ([] : List (List Char)) c)
      = (fun c => strIncludes (lowerStr c.title) "pediatrics".data
        || strIncludes (lowerStr c.description) "pediatrics".data) := by
    funext c
    rw [show strTrim (lowerStr "Pediatrics".data) = "pediatrics".data from by decide]
    simp [matchesSearch, matchesFilter,
      show ("pediatrics".data).isEmpty = false from by decide]
  rw [hfun, hone]

theorem c9_witness :
    scnCards.length = 8 ∧
    scnCards.countP (fun c => strIncludes (lowerStr c.title) "pediatrics".data
      || strIncludes (lowerStr c.description) "pediatrics".data) = 1 ∧
    (filterAndSortCards "Pediatrics".data [] "alphabetical".data scnCards).length = 1 := by
  refine ⟨by decide, by decide, ?_⟩
  exact c9_search_scenario scnCards "alphabetical".data (by decide) (by decide)

end WebCtl
